import Mathlib

set_option maxHeartbeats 1000000
set_option maxRecDepth 4000

/-!
Verification development for the `tr2loop` tail-recursion optimizer.

The program analyzes Python functions for tail recursion
(`tr2loop/tail_analysis.py`), and rewrites certified tail-recursive
functions into `while True` loops (`tr2loop/tail_transform.py`).

We embed the fragment of the Python AST that the program inspects:
- expressions, sufficient to identify calls, their callee, their
  positional and keyword arguments, and to search a subtree for calls
  (`ast.walk` descends into every child, including keyword values);
- statements, distinguishing `Return`, `If`, the compound constructs
  `While`/`For`/`Try`/`With`/`Match` that the analyzer treats
  conservatively, `Assign`, `Continue`, and a generic statement carrying
  its expressions and sub-statement body (covering `Expr` statements,
  nested `FunctionDef`s, and anything else).

All analysis and rewriting functions below are direct translations of
the corresponding Python functions; each carries a comment naming its
source.
-/

/-- Python expression nodes, restricted to what the analyzer inspects.
`call` keeps the callee expression, the positional argument list and the
keyword argument value list separate because `TailTransformer.visit_Return`
reads only `node.value.args` (positional) while `ast.walk` descends into
keyword values as well. `other` stands for any other expression kind
(`BinOp`, `Compare`, ...) with its child expressions. -/
inductive PExpr where
  | name (id : String)
  | boolConst (b : Bool)
  | call (callee : PExpr) (args : List PExpr) (kwargs : List PExpr)
  | tupleE (elts : List PExpr)
  | other (kids : List PExpr)

/-- The compound statement classes that `_check_block` case 3 matches:
`isinstance(s, (ast.While, ast.For, ast.Try, ast.With, ast.Match))`. -/
inductive CompoundKind where
  | whileK
  | forK
  | tryK
  | withK
  | matchK

/-- Python class name of a compound construct, as used in diagnostics
(`s.__class__.__name__`). -/
def CompoundKind.clsName : CompoundKind → String
  | .whileK => "While"
  | .forK => "For"
  | .tryK => "Try"
  | .withK => "With"
  | .matchK => "Match"

/-- Python statement nodes, restricted to what the program inspects.
`compound` carries its kind, its immediate expressions (e.g. a `While`
test or a `For` iterator) and its sub-statements flattened into one body
(the analyzer only ever scans the whole subtree of such a statement, and
the transformer rewrites every statement list inside it uniformly).
`generic` covers every other statement class (`Expr`, nested
`FunctionDef`, ...) with its class name, expressions and sub-statements. -/
inductive PStmt where
  | ret (value : Option PExpr)
  | ifS (test : PExpr) (body : List PStmt) (orelse : List PStmt)
  | compound (k : CompoundKind) (exprs : List PExpr) (body : List PStmt)
  | assign (targets : List PExpr) (value : PExpr)
  | continueS
  | generic (cls : String) (exprs : List PExpr) (body : List PStmt)

/-- Python class name of a statement (`s.__class__.__name__`). -/
def PStmt.clsName : PStmt → String
  | .ret _ => "Return"
  | .ifS _ _ _ => "If"
  | .compound k _ _ => k.clsName
  | .assign _ _ => "Assign"
  | .continueS => "Continue"
  | .generic c _ _ => c

/-- An `ast.FunctionDef`: name, positional parameter names
(`[a.arg for a in func.args.args]`), and body. -/
structure FunctionDef where
  name : String
  params : List String
  body : List PStmt

instance : Inhabited FunctionDef := ⟨⟨"", [], []⟩⟩

/-- `TailRecursionAnalyzer._is_self_call`: the callee node is an
`ast.Name` whose id equals the analyzed function's name. -/
def is_self_call (fname : String) : PExpr → Bool
  | .name id => id == fname
  | _ => false

/-- `isinstance(value, ast.Call) and self._is_self_call(value.func)`:
the expression is itself a direct self-call `f(...)`. -/
def isDirectSelfCall (fname : String) : PExpr → Bool
  | .call f _ _ => is_self_call fname f
  | _ => false

mutual
/-- Number of self-call nodes in an expression subtree, counting every
`ast.Call` whose callee is `ast.Name fname`, as `ast.walk` enumerates
(callee subexpression, positional arguments and keyword values included). -/
def countE (fname : String) : PExpr → Nat
  | .name _ => 0
  | .boolConst _ => 0
  | .call f args kwargs =>
      (if is_self_call fname f then 1 else 0) + countE fname f
        + countEL fname args + countEL fname kwargs
  | .tupleE elts => countEL fname elts
  | .other kids => countEL fname kids

/-- Sum of `countE` over a list of expressions. -/
def countEL (fname : String) : List PExpr → Nat
  | [] => 0
  | e :: es => countE fname e + countEL fname es
end

mutual
/-- `TailRecursionAnalyzer._contains_self_call` on an expression:
`ast.walk` finds some `ast.Call` whose callee is `ast.Name fname`. -/
def containsE (fname : String) : PExpr → Bool
  | .name _ => false
  | .boolConst _ => false
  | .call f args kwargs =>
      is_self_call fname f || containsE fname f || containsEL fname args
        || containsEL fname kwargs
  | .tupleE elts => containsEL fname elts
  | .other kids => containsEL fname kids

/-- `containsE` over a list of expressions. -/
def containsEL (fname : String) : List PExpr → Bool
  | [] => false
  | e :: es => containsE fname e || containsEL fname es
end

mutual
/-- Number of self-call nodes in a statement subtree; this is the count
returned (entirely as non-tail) by
`TailRecursionAnalyzer._scan_for_self_calls_generic`, whose `ast.walk`
covers the statement's own expressions and all nested statements. -/
def countS (fname : String) : PStmt → Nat
  | .ret none => 0
  | .ret (some e) => countE fname e
  | .ifS t b o => countE fname t + countSL fname b + countSL fname o
  | .compound _ es b => countEL fname es + countSL fname b
  | .assign ts v => countEL fname ts + countE fname v
  | .continueS => 0
  | .generic _ es b => countEL fname es + countSL fname b

/-- Sum of `countS` over a statement list. -/
def countSL (fname : String) : List PStmt → Nat
  | [] => 0
  | s :: ss => countS fname s + countSL fname ss
end

/-- `BlockCheck` from `tail_analysis.py`: summary of a statement block. -/
structure BlockCheck where
  ok : Bool
  always_returns : Bool
  self_calls_in_tail : Nat
  self_calls_non_tail : Nat
  reasons : List String

/-- `TailRecursionAnalyzer._analyze_return_expr`: classify the expression
of a `return`.  Result is `(ok, self_calls_in_tail, self_calls_non_tail,
reasons)`. -/
def analyze_return_expr (fname : String) :
    Option PExpr → Bool × Nat × Nat × List String
  | none => (true, 0, 0, [])
  | some v =>
      if isDirectSelfCall fname v then
        (true, 1, 0, [])
      else if containsE fname v then
        (false, 0, 1, ["Self-call détecté dans l\x27expression de retour -> non terminal"])
      else
        (true, 0, 0, [])

/-- Diagnostic emitted by `_check_block` case 3 for a compound construct. -/
def structureMsg (k : CompoundKind) : String :=
  "Structure " ++ k.clsName ++ " détectée : analyse V1 conservatrice"

/-- Diagnostic emitted by `_check_block` case 4 when a generic statement
contains a self-call. -/
def nonTailStmtMsg (fname : String) (cls : String) : String :=
  "Auto-appel à \x27" ++ fname ++ "\x27 trouvé hors `return` (statement " ++ cls ++ ")."

/-- `TailRecursionAnalyzer._check_block`: scan a statement list in order.
The Python `while` loop accumulates `ok`, the two self-call counters and
`reasons` across iterations and `break`s (i) at a `Return` and (ii) at an
`If` whose two branches both always return, setting `block_returns`;
reaching the end of the list leaves `block_returns = False`.  The
translation below processes the head statement and combines its
contribution with the recursive scan of the remaining statements, cutting
that scan off exactly where the loop `break`s. -/
def check_block (fname : String) : List PStmt → BlockCheck
  | [] => ⟨true, false, 0, 0, []⟩
  | .ret v :: _ =>
      let r := analyze_return_expr fname v
      ⟨r.1, true, r.2.1, r.2.2.1, r.2.2.2⟩
  | .ifS _ b o :: rest =>
      let thenR := check_block fname b
      let elseR := check_block fname o
      if thenR.always_returns && elseR.always_returns then
        ⟨thenR.ok && elseR.ok, true,
         thenR.self_calls_in_tail + elseR.self_calls_in_tail,
         thenR.self_calls_non_tail + elseR.self_calls_non_tail,
         thenR.reasons ++ elseR.reasons⟩
      else
        let restR := check_block fname rest
        ⟨thenR.ok && elseR.ok && restR.ok, restR.always_returns,
         thenR.self_calls_in_tail + elseR.self_calls_in_tail + restR.self_calls_in_tail,
         thenR.self_calls_non_tail + elseR.self_calls_non_tail + restR.self_calls_non_tail,
         thenR.reasons ++ elseR.reasons ++ restR.reasons⟩
  | .compound k es b :: rest =>
      let nt := countS fname (.compound k es b)
      let restR := check_block fname rest
      ⟨(nt == 0) && restR.ok, restR.always_returns,
       restR.self_calls_in_tail, nt + restR.self_calls_non_tail,
       structureMsg k :: restR.reasons⟩
  | s :: rest =>
      let nt := countS fname s
      let restR := check_block fname rest
      ⟨(nt == 0) && restR.ok, restR.always_returns,
       restR.self_calls_in_tail, nt + restR.self_calls_non_tail,
       (if nt > 0 then [nonTailStmtMsg fname s.clsName] else []) ++ restR.reasons⟩

/-- `FunctionAnalysis` from `tail_analysis.py`. -/
structure FunctionAnalysis where
  name : String
  is_recursive : Bool
  is_tail_recursive : Bool
  reasons : List String
  total_self_calls : Nat

/-- `TailRecursionAnalyzer.analyze`: run `_check_block` on the function
body and aggregate the verdict and reasons exactly as the Python code
does (three conditional appends, in order). -/
def TailRecursionAnalyzer.analyze (func : FunctionDef) : FunctionAnalysis :=
  let block := check_block func.name func.body
  let is_recursive : Bool := decide (block.self_calls_in_tail + block.self_calls_non_tail > 0)
  let is_tail : Bool := is_recursive && block.ok
      && (block.self_calls_non_tail == 0) && block.always_returns
  let reasons := block.reasons
    ++ (if is_recursive && decide (block.self_calls_non_tail > 0) then
          ["Auto-appel détecté hors position terminale (pas de `return f(...)`)."]
        else [])
    ++ (if !block.always_returns then
          ["Tous les chemins n\x27aboutissent pas à un `return` (analyse tail simplifiée échoue)."]
        else [])
    ++ (if !is_recursive then
          ["Pas d\x27auto-appel détecté (fonction non récursive)."]
        else [])
  ⟨func.name, is_recursive, is_tail, reasons,
   block.self_calls_in_tail + block.self_calls_non_tail⟩

mutual
/-- `is_tail_recursive` from `tail_transform.py`, restricted to one
statement.  The Python function runs `ast.walk(func)` and, for every
`ast.Call` whose callee is `ast.Name` equal to the function's name,
checks `isinstance(node.parent, ast.Return)` (parents having been set by
`attach_parents`).  A call node's parent is an `ast.Return` exactly when
the call occurs as the `value` field of a `Return` statement, so the
walk succeeds iff: every `return` whose expression is a direct self-call
has self-call-free arguments and keyword values, every other `return`
expression is self-call-free, and every non-`return` expression slot is
self-call-free —  recursively through all nested statement bodies
(a `return f(...)` nested inside a loop still has a `Return` parent and
is accepted). -/
def tailPosOkS (fname : String) : PStmt → Bool
  | .ret none => true
  | .ret (some v) =>
      match v with
      | .call f args kwargs =>
          if is_self_call fname f then
            !(containsEL fname args) && !(containsEL fname kwargs) && !(containsE fname f)
          else
            !(containsE fname (.call f args kwargs))
      | e => !(containsE fname e)
  | .ifS t b o => !(containsE fname t) && tailPosOkSL fname b && tailPosOkSL fname o
  | .compound _ es b => !(containsEL fname es) && tailPosOkSL fname b
  | .assign ts v => !(containsEL fname ts) && !(containsE fname v)
  | .continueS => true
  | .generic _ es b => !(containsEL fname es) && tailPosOkSL fname b

/-- `tailPosOkS` over a statement list. -/
def tailPosOkSL (fname : String) : List PStmt → Bool
  | [] => true
  | s :: ss => tailPosOkS fname s && tailPosOkSL fname ss
end

/-- `is_tail_recursive(func)` from `tail_transform.py`: every self-call
node's parent is a `Return` (walk never hits a violation) and at least
one self-call was found (`found_call`). -/
def is_tail_recursive (func : FunctionDef) : Bool :=
  tailPosOkSL func.name func.body && decide (0 < countSL func.name func.body)

mutual
/-- `TailTransformer` (an `ast.NodeTransformer` whose only visitor is
`visit_Return`) applied to one statement.  `visit_Return` turns
`return f(a1..an)` — value an `ast.Call` with callee `ast.Name` equal to
`func_name` — into the two-statement list
`[(p1,..,pk) = (a1,..,an), continue]`; the target tuple holds all
parameters, the value tuple holds exactly the positional arguments
(`node.value.args`; keywords dropped).  Any other statement is left as
is, with `generic_visit` splicing replacement lists into every nested
statement body.  The result list is what gets spliced into the enclosing
body. -/
def rewriteS (fname : String) (params : List String) : PStmt → List PStmt
  | .ret (some (.call f args kwargs)) =>
      if is_self_call fname f then
        [.assign [.tupleE (params.map PExpr.name)] (.tupleE args), .continueS]
      else
        [.ret (some (.call f args kwargs))]
  | .ifS t b o => [.ifS t (rewriteSL fname params b) (rewriteSL fname params o)]
  | .compound k es b => [.compound k es (rewriteSL fname params b)]
  | .generic c es b => [.generic c es (rewriteSL fname params b)]
  | s => [s]

/-- The splicing concatenation performed by `generic_visit` on a
statement list (and by the explicit extend/append loop in
`transform_tail_recursion` for the top-level body). -/
def rewriteSL (fname : String) (params : List String) : List PStmt → List PStmt
  | [] => []
  | s :: ss => rewriteS fname params s ++ rewriteSL fname params ss
end

/-- `transform_tail_recursion(func)`: rewrite the body statements and
wrap them as the sole body of one `while True:` loop; the function's
name and parameter list are untouched.  (In Python this assigns
`func.body = [loop]` in place and returns `func`; the value computed
here is that final value — the object-identity aspect is modelled
separately by `transform_tail_recursion_ref`.) -/
def transform_tail_recursion (func : FunctionDef) : FunctionDef :=
  { func with
    body := [.compound .whileK [.boolConst true]
              (rewriteSL func.name func.params func.body)] }

/-- `analyze_and_transform` from `tail_transform.py`, value level: the
module's top-level function definitions in order (non-function top-level
statements are skipped by the Python loop and omitted here).  Returns
the rewritten unit — each function transformed iff `is_tail_recursive`
certifies it — and the `info` list `(name, is_transformed)`. -/
def analyze_and_transform (funcs : List FunctionDef) :
    List FunctionDef × List (String × Bool) :=
  (funcs.map (fun f => if is_tail_recursive f then transform_tail_recursion f else f),
   funcs.map (fun f => (f.name, is_tail_recursive f)))

/-!
Object-identity model.  `analyze_and_transform` parses the source twice
(`original_tree = ast.parse(source)` and `new_tree = ast.parse(source)`),
producing two independent node instances per function, and
`transform_tail_recursion` mutates its argument node (`func.body = [loop]`)
and returns that very node.  We model the node store as a list of
`FunctionDef` indexed by node id: ids `0..n-1` are the original tree's
function nodes, ids `n..2n-1` the reparsed tree's nodes, and mutation is
`List.set`.
-/

/-- `transform_tail_recursion` at the reference level: mutate the node
at id `i` in place and return the same id (the Python function ends with
`func.body = [loop]; return func`). -/
def transform_tail_recursion_ref (heap : List FunctionDef) (i : Nat) :
    List FunctionDef × Nat :=
  (heap.set i (transform_tail_recursion (heap.getD i default)), i)

/-- `analyze_and_transform` at the reference level: the store starts as
original parse ++ fresh reparse of the same source (equal values,
distinct node ids); the orchestrator walks the new tree's node ids
`n..2n-1` in order, mutating in place each node that
`is_tail_recursive` certifies.  Returns the final store. -/
def analyze_and_transform_ref (funcs : List FunctionDef) : List FunctionDef :=
  let n := funcs.length
  (List.range n).foldl
    (fun heap j =>
      if is_tail_recursive (heap.getD (n + j) default) then
        (transform_tail_recursion_ref heap (n + j)).1
      else heap)
    (funcs ++ funcs)

mutual
/-- Specification predicate (wording of the Rewriter contract): the
statement subtree holds some `Return` whose expression is a direct
self-call `f(...)` — exactly the nodes `TailTransformer.visit_Return`
replaces. -/
def hasTailRetS (fname : String) : PStmt → Bool
  | .ret (some v) => isDirectSelfCall fname v
  | .ret none => false
  | .ifS _ b o => hasTailRetSL fname b || hasTailRetSL fname o
  | .compound _ _ b => hasTailRetSL fname b
  | .assign _ _ => false
  | .continueS => false
  | .generic _ _ b => hasTailRetSL fname b

/-- `hasTailRetS` over a statement list. -/
def hasTailRetSL (fname : String) : List PStmt → Bool
  | [] => false
  | s :: ss => hasTailRetS fname s || hasTailRetSL fname ss
end

/-! ### Concrete example functions -/

/-- The accumulator factorial of the test suite:
`def fact(n, acc): if n <= 1: return acc; return fact(n-1, acc*n)`. -/
def exFact : FunctionDef :=
  ⟨"fact", ["n", "acc"],
   [.ifS (.other [.name "n"]) [.ret (some (.name "acc"))] [],
    .ret (some (.call (.name "fact")
      [.other [.name "n"], .other [.name "acc", .name "n"]] []))]⟩

/-- `def f(n): if n > 0: return f(n - 1)` — the only self-call is
directly returned, but the `If` is not exhaustive, so not every path
returns. -/
def exIfOnly : FunctionDef :=
  ⟨"f", ["n"],
   [.ifS (.other [.name "n"]) [.ret (some (.call (.name "f") [.other [.name "n"]] []))] []]⟩

/-- The naive factorial `def g(n): if n <= 1: return 1; return n * g(n-1)` —
recursive but not tail-recursive (self-call nested in the return
expression). -/
def exNonTail : FunctionDef :=
  ⟨"g", ["n"],
   [.ifS (.other [.name "n"]) [.ret (some (.other []))] [],
    .ret (some (.other [.name "n", .call (.name "g") [.other [.name "n"]] []]))]⟩

/-! ### Helper lemmas -/

mutual
/-- `_contains_self_call` agrees with the walk-based count: an expression
contains no self-call iff its self-call count is zero. -/
theorem containsE_eq_false_iff (fname : String) :
    ∀ e, containsE fname e = false ↔ countE fname e = 0
  | .name _ => by simp [containsE, countE]
  | .boolConst _ => by simp [containsE, countE]
  | .call f args kwargs => by
      have h1 := containsE_eq_false_iff fname f
      have h2 := containsEL_eq_false_iff fname args
      have h3 := containsEL_eq_false_iff fname kwargs
      cases hs : is_self_call fname f <;>
        simp [containsE, countE, h1, h2, h3, hs]
  | .tupleE elts => by
      have := containsEL_eq_false_iff fname elts
      simp [containsE, countE, this]
  | .other kids => by
      have := containsEL_eq_false_iff fname kids
      simp [containsE, countE, this]

/-- List version of `containsE_eq_false_iff`. -/
theorem containsEL_eq_false_iff (fname : String) :
    ∀ es, containsEL fname es = false ↔ countEL fname es = 0
  | [] => by simp [containsEL, countEL]
  | e :: es => by
      have h1 := containsE_eq_false_iff fname e
      have h2 := containsEL_eq_false_iff fname es
      simp [containsEL, countEL, h1, h2]
end

/-- A tuple of bare parameter names contains no self-call. -/
theorem countEL_map_name (fname : String) :
    ∀ params : List String, countEL fname (params.map PExpr.name) = 0
  | [] => by simp [countEL]
  | p :: ps => by simp [countEL, countE, countEL_map_name fname ps]

/-- A direct self-call has self-call count at least one. -/
theorem countE_pos_of_direct (fname : String) (v : PExpr)
    (h : isDirectSelfCall fname v = true) : 0 < countE fname v := by
  cases v with
  | call f args kwargs =>
      simp only [isDirectSelfCall] at h
      simp [countE, h]
  | name _ => simp [isDirectSelfCall] at h
  | boolConst _ => simp [isDirectSelfCall] at h
  | tupleE _ => simp [isDirectSelfCall] at h
  | other _ => simp [isDirectSelfCall] at h

/-- The tail counter of `_analyze_return_expr` is 1 exactly on a direct
self-call and 0 otherwise. -/
theorem analyze_return_tail_eq (fname : String) (v : Option PExpr) :
    (analyze_return_expr fname v).2.1
      = (match v with
         | none => 0
         | some e => if isDirectSelfCall fname e then 1 else 0) := by
  cases v with
  | none => simp [analyze_return_expr]
  | some e =>
      by_cases hd : isDirectSelfCall fname e = true
      · simp [analyze_return_expr, hd]
      · simp only [Bool.not_eq_true] at hd
        by_cases hc : containsE fname e = true <;>
          simp [analyze_return_expr, hd, hc]

/-- Tail self-calls reported by a block scan never exceed the total
self-call count of the scanned statements. -/
theorem tail_le_countSL (fname : String) :
    ∀ ss, (check_block fname ss).self_calls_in_tail ≤ countSL fname ss
  | [] => by simp [check_block, countSL]
  | .ret v :: rest => by
      simp only [check_block, countSL]
      rw [analyze_return_tail_eq]
      cases v with
      | none => simp [countS]
      | some e =>
          by_cases hd : isDirectSelfCall fname e = true
          · have := countE_pos_of_direct fname e hd
            simp only [hd, if_true, countS]
            omega
          · simp only [Bool.not_eq_true] at hd
            simp [hd, countS]
  | .ifS t b o :: rest => by
      have hb := tail_le_countSL fname b
      have ho := tail_le_countSL fname o
      have hr := tail_le_countSL fname rest
      by_cases h : ((check_block fname b).always_returns
          && (check_block fname o).always_returns) = true
      · simp [check_block, countSL, countS, h]; omega
      · simp [check_block, countSL, countS, h]; omega
  | .compound k es b :: rest => by
      have hr := tail_le_countSL fname rest
      simp only [check_block, countSL]
      omega
  | .assign ts v :: rest => by
      have hr := tail_le_countSL fname rest
      simp only [check_block, countSL]
      omega
  | .continueS :: rest => by
      have hr := tail_le_countSL fname rest
      simp only [check_block, countSL]
      omega
  | .generic c es b :: rest => by
      have hr := tail_le_countSL fname rest
      simp only [check_block, countSL]
      omega

mutual
/-- If every self-call of a statement sits in the `value` slot of a
`Return` (the `is_tail_recursive` walk succeeds), rewriting leaves no
self-call: every such `Return` becomes assignment-plus-continue whose
expressions are the (self-call-free) arguments and parameter names. -/
theorem rewrite_countS (fname : String) (params : List String) :
    ∀ s, tailPosOkS fname s = true → countSL fname (rewriteS fname params s) = 0
  | .ret none => by intro _; simp [rewriteS, countSL, countS]
  | .ret (some v) => by
      intro h
      cases v with
      | call f args kwargs =>
          by_cases hs : is_self_call fname f = true
          · simp only [tailPosOkS, hs, if_true, Bool.and_eq_true, Bool.not_eq_true'] at h
            obtain ⟨⟨ha, hk⟩, _⟩ := h
            rw [containsEL_eq_false_iff] at ha hk
            simp [rewriteS, hs, countSL, countS, countEL, countE, countEL_map_name, ha]
          · simp only [Bool.not_eq_true] at hs
            simp only [tailPosOkS, hs, Bool.false_eq_true, if_false,
              Bool.not_eq_true'] at h
            rw [containsE_eq_false_iff] at h
            simp [rewriteS, hs, countSL, countS, h]
      | name i =>
          simp only [tailPosOkS, Bool.not_eq_true'] at h
          rw [containsE_eq_false_iff] at h
          simp [rewriteS, countSL, countS, h]
      | boolConst b =>
          simp only [tailPosOkS, Bool.not_eq_true'] at h
          rw [containsE_eq_false_iff] at h
          simp [rewriteS, countSL, countS, h]
      | tupleE elts =>
          simp only [tailPosOkS, Bool.not_eq_true'] at h
          rw [containsE_eq_false_iff] at h
          simp [rewriteS, countSL, countS, h]
      | other kids =>
          simp only [tailPosOkS, Bool.not_eq_true'] at h
          rw [containsE_eq_false_iff] at h
          simp [rewriteS, countSL, countS, h]
  | .ifS t b o => by
      intro h
      simp only [tailPosOkS, Bool.and_eq_true, Bool.not_eq_true'] at h
      obtain ⟨⟨ht, hb⟩, ho⟩ := h
      rw [containsE_eq_false_iff] at ht
      have ihb := rewrite_countSL fname params b hb
      have iho := rewrite_countSL fname params o ho
      simp [rewriteS, countSL, countS, ht, ihb, iho]
  | .compound k es b => by
      intro h
      simp only [tailPosOkS, Bool.and_eq_true, Bool.not_eq_true'] at h
      obtain ⟨hes, hb⟩ := h
      rw [containsEL_eq_false_iff] at hes
      have ihb := rewrite_countSL fname params b hb
      simp [rewriteS, countSL, countS, hes, ihb]
  | .assign ts v => by
      intro h
      simp only [tailPosOkS, Bool.and_eq_true, Bool.not_eq_true'] at h
      obtain ⟨hts, hv⟩ := h
      rw [containsEL_eq_false_iff] at hts
      rw [containsE_eq_false_iff] at hv
      simp [rewriteS, countSL, countS, hts, hv]
  | .continueS => by intro _; simp [rewriteS, countSL, countS]
  | .generic c es b => by
      intro h
      simp only [tailPosOkS, Bool.and_eq_true, Bool.not_eq_true'] at h
      obtain ⟨hes, hb⟩ := h
      rw [containsEL_eq_false_iff] at hes
      have ihb := rewrite_countSL fname params b hb
      simp [rewriteS, countSL, countS, hes, ihb]

/-- List version of `rewrite_countS`. -/
theorem rewrite_countSL (fname : String) (params : List String) :
    ∀ ss, tailPosOkSL fname ss = true → countSL fname (rewriteSL fname params ss) = 0
  | [] => by intro _; simp [rewriteSL, countSL]
  | s :: ss => by
      intro h
      simp only [tailPosOkSL, Bool.and_eq_true] at h
      have ih1 := rewrite_countS fname params s h.1
      have ih2 := rewrite_countSL fname params ss h.2
      have : countSL fname (rewriteS fname params s ++ rewriteSL fname params ss)
          = countSL fname (rewriteS fname params s)
            + countSL fname (rewriteSL fname params ss) := by
        clear ih1 ih2 h
        generalize rewriteS fname params s = l1
        induction l1 with
        | nil => simp [countSL]
        | cons x xs ihx => simp [countSL, ihx]; omega
      rw [rewriteSL, this, ih1, ih2]
end

mutual
/-- A statement holding no direct-self-call `Return` passes through the
transformer unchanged. -/
theorem rewriteS_id (fname : String) (params : List String) :
    ∀ s, hasTailRetS fname s = false → rewriteS fname params s = [s]
  | .ret none => by intro _; simp [rewriteS]
  | .ret (some v) => by
      intro h
      simp only [hasTailRetS] at h
      cases v with
      | call f args kwargs =>
          simp only [isDirectSelfCall] at h
          simp [rewriteS, h]
      | name _ => simp [rewriteS]
      | boolConst _ => simp [rewriteS]
      | tupleE _ => simp [rewriteS]
      | other _ => simp [rewriteS]
  | .ifS t b o => by
      intro h
      simp only [hasTailRetS, Bool.or_eq_false_iff] at h
      simp [rewriteS, rewriteSL_id fname params b h.1, rewriteSL_id fname params o h.2]
  | .compound k es b => by
      intro h
      simp only [hasTailRetS] at h
      simp [rewriteS, rewriteSL_id fname params b h]
  | .assign ts v => by intro _; simp [rewriteS]
  | .continueS => by intro _; simp [rewriteS]
  | .generic c es b => by
      intro h
      simp only [hasTailRetS] at h
      simp [rewriteS, rewriteSL_id fname params b h]

/-- A statement list holding no direct-self-call `Return` passes through
the transformer unchanged. -/
theorem rewriteSL_id (fname : String) (params : List String) :
    ∀ ss, hasTailRetSL fname ss = false → rewriteSL fname params ss = ss
  | [] => by intro _; simp [rewriteSL]
  | s :: ss => by
      intro h
      simp only [hasTailRetSL, Bool.or_eq_false_iff] at h
      simp [rewriteSL, rewriteS_id fname params s h.1, rewriteSL_id fname params ss h.2]
end

/-- A block whose reachable top-level statements are each either a
conservative compound construct or self-call-free yields no tail
self-call. -/
theorem tail_eq_zero_of_heads (fname : String) :
    ∀ ss, (∀ s ∈ ss, (∃ k es b, s = PStmt.compound k es b) ∨ countS fname s = 0) →
      (check_block fname ss).self_calls_in_tail = 0
  | [] => by intro _; simp [check_block]
  | .ret v :: rest => by
      intro h
      have hv := h (.ret v) (List.mem_cons_self _ _)
      rcases hv with ⟨k, es, b, hk⟩ | hv
      · cases hk
      · simp only [check_block]
        rw [analyze_return_tail_eq]
        cases v with
        | none => simp
        | some e =>
            by_cases hd : isDirectSelfCall fname e = true
            · have := countE_pos_of_direct fname e hd
              simp only [countS] at hv
              omega
            · simp only [Bool.not_eq_true] at hd
              simp [hd]
  | .ifS t b o :: rest => by
      intro h
      have hv := h (.ifS t b o) (List.mem_cons_self _ _)
      rcases hv with ⟨k, es, bb, hk⟩ | hv
      · cases hk
      · simp only [countS] at hv
        have hb := tail_le_countSL fname b
        have ho := tail_le_countSL fname o
        have hrest := tail_eq_zero_of_heads fname rest
          (fun s hs => h s (List.mem_cons_of_mem _ hs))
        by_cases hcond : ((check_block fname b).always_returns
            && (check_block fname o).always_returns) = true
        · simp [check_block, hcond]; omega
        · simp [check_block, hcond, hrest]; omega
  | .compound k es b :: rest => by
      intro h
      have hrest := tail_eq_zero_of_heads fname rest
        (fun s hs => h s (List.mem_cons_of_mem _ hs))
      simp [check_block, hrest]
  | .assign ts v :: rest => by
      intro h
      have hrest := tail_eq_zero_of_heads fname rest
        (fun s hs => h s (List.mem_cons_of_mem _ hs))
      simp [check_block, hrest]
  | .continueS :: rest => by
      intro h
      have hrest := tail_eq_zero_of_heads fname rest
        (fun s hs => h s (List.mem_cons_of_mem _ hs))
      simp [check_block, hrest]
  | .generic c es b :: rest => by
      intro h
      have hrest := tail_eq_zero_of_heads fname rest
        (fun s hs => h s (List.mem_cons_of_mem _ hs))
      simp [check_block, hrest]

/-- Updates performed at node ids of the reparsed tree (`n + j`) never
change a store entry below `n` (an original-tree node). -/
theorem foldl_transform_preserves_lt (n i : Nat) (hi : i < n) :
    ∀ (js : List Nat) (heap : List FunctionDef),
      ((js.foldl (fun h j =>
          if is_tail_recursive (h.getD (n + j) default) then
            (transform_tail_recursion_ref h (n + j)).1
          else h) heap)).getD i default = heap.getD i default := by
  intro js
  induction js with
  | nil => intro heap; simp
  | cons j js ih =>
      intro heap
      simp only [List.foldl_cons]
      rw [ih]
      by_cases hc : is_tail_recursive (heap.getD (n + j) default) = true
      · rw [if_pos hc]
        simp only [transform_tail_recursion_ref, List.getD_eq_getElem?_getD]
        rw [List.getElem?_set_ne (by omega)]
      · rw [if_neg hc]

/-- Unfolding of the aggregation performed by
`TailRecursionAnalyzer.analyze` on top of the block scan. -/
theorem analyze_fields (func : FunctionDef) :
    (TailRecursionAnalyzer.analyze func).is_recursive
        = decide ((check_block func.name func.body).self_calls_in_tail
            + (check_block func.name func.body).self_calls_non_tail > 0)
  ∧ (TailRecursionAnalyzer.analyze func).total_self_calls
        = (check_block func.name func.body).self_calls_in_tail
          + (check_block func.name func.body).self_calls_non_tail
  ∧ (TailRecursionAnalyzer.analyze func).is_tail_recursive
        = (decide ((check_block func.name func.body).self_calls_in_tail
             + (check_block func.name func.body).self_calls_non_tail > 0)
           && (check_block func.name func.body).ok
           && ((check_block func.name func.body).self_calls_non_tail == 0)
           && (check_block func.name func.body).always_returns) :=
  ⟨rfl, rfl, rfl⟩

/-- `is_tail_recursive` unfolded on its two conjuncts. -/
theorem is_tail_recursive_eq (func : FunctionDef) :
    is_tail_recursive func
      = (tailPosOkSL func.name func.body
          && decide (0 < countSL func.name func.body)) := rfl

/-- Concrete block verdict of the accumulator factorial. -/
theorem exFact_block :
    check_block exFact.name exFact.body = ⟨true, true, 1, 0, []⟩ := by
  simp [exFact, check_block, analyze_return_expr, isDirectSelfCall, is_self_call,
    containsE, containsEL, countS, countE, countEL, countSL]

/-- The gate's walk succeeds on the accumulator factorial. -/
theorem exFact_tailPos : tailPosOkSL exFact.name exFact.body = true := by
  simp [exFact, tailPosOkSL, tailPosOkS, is_self_call, containsE, containsEL]

/-- The accumulator factorial holds one self-call. -/
theorem exFact_count : countSL exFact.name exFact.body = 1 := by
  simp [exFact, countSL, countS, countE, countEL, is_self_call]

/-- The gate certifies the accumulator factorial. -/
theorem exFact_gate : is_tail_recursive exFact = true := by
  rw [is_tail_recursive_eq, exFact_tailPos, exFact_count]
  rfl

/-- Concrete block verdict of `exIfOnly`: one tail self-call but the
non-exhaustive `if` leaves `always_returns` false. -/
theorem exIfOnly_block :
    check_block exIfOnly.name exIfOnly.body = ⟨true, false, 1, 0, []⟩ := by
  simp [exIfOnly, check_block, analyze_return_expr, isDirectSelfCall, is_self_call,
    containsE, containsEL, countS, countE, countEL, countSL]

/-- The gate's walk succeeds on `exIfOnly`. -/
theorem exIfOnly_tailPos : tailPosOkSL exIfOnly.name exIfOnly.body = true := by
  simp [exIfOnly, tailPosOkSL, tailPosOkS, is_self_call, containsE, containsEL]

/-- `exIfOnly` holds one self-call. -/
theorem exIfOnly_count : countSL exIfOnly.name exIfOnly.body = 1 := by
  simp [exIfOnly, countSL, countS, countE, countEL, is_self_call]

/-- The gate certifies `exIfOnly`. -/
theorem exIfOnly_gate : is_tail_recursive exIfOnly = true := by
  rw [is_tail_recursive_eq, exIfOnly_tailPos, exIfOnly_count]
  rfl

/-- The gate's walk fails on the naive factorial: its self-call sits
inside the return expression, not directly under the `Return`. -/
theorem exNonTail_tailPos : tailPosOkSL exNonTail.name exNonTail.body = false := by
  simp [exNonTail, tailPosOkSL, tailPosOkS, is_self_call, containsE, containsEL]

/-- The gate rejects the naive factorial. -/
theorem exNonTail_gate : is_tail_recursive exNonTail = false := by
  rw [is_tail_recursive_eq, exNonTail_tailPos, Bool.false_and]

/-- Concrete block verdict of the naive factorial: one non-tail
self-call and a diagnostic. -/
theorem exNonTail_block :
    check_block exNonTail.name exNonTail.body
      = ⟨false, true, 0, 1,
         ["Self-call détecté dans l\x27expression de retour -> non terminal"]⟩ := by
  simp [exNonTail, check_block, analyze_return_expr, isDirectSelfCall, is_self_call,
    containsE, containsEL, countS, countE, countEL, countSL]

/-! ### Claims -/

/-- C5: a `Return` whose expression contains a self-call but is not
itself a direct self-call `f(args)` yields exactly one non-tail
self-call, `ok = false` and one diagnostic, both at the
`_analyze_return_expr` level and in the surrounding block verdict; and
the tail counter is 1 exactly on the shape `return f(args)`, 0 on every
other return. -/
theorem C5_nested_self_call_non_tail :
    (∀ (fname : String) (e : PExpr),
        containsE fname e = true → isDirectSelfCall fname e = false →
        analyze_return_expr fname (some e)
          = (false, 0, 1,
             ["Self-call détecté dans l\x27expression de retour -> non terminal"]))
  ∧ (∀ (fname : String) (e : PExpr) (rest : List PStmt),
        containsE fname e = true → isDirectSelfCall fname e = false →
        check_block fname (.ret (some e) :: rest)
          = ⟨false, true, 0, 1,
             ["Self-call détecté dans l\x27expression de retour -> non terminal"]⟩)
  ∧ (∀ (fname : String) (v : Option PExpr),
        (analyze_return_expr fname v).2.1
          = (match v with
             | none => 0
             | some e => if isDirectSelfCall fname e then 1 else 0)) := by
  refine ⟨?_, ?_, ?_⟩
  · intro fname e hc hd
    simp [analyze_return_expr, hd, hc]
  · intro fname e rest hc hd
    simp [check_block, analyze_return_expr, hd, hc]
  · intro fname v
    exact analyze_return_tail_eq fname v

/-- C5 witness: `return n * g(n)` — the expression contains a self-call
but is not one. -/
theorem C5_nested_self_call_non_tail_witness :
    (containsE "g" (.other [.name "n", .call (.name "g") [.name "n"] []]) = true
      ∧ isDirectSelfCall "g" (.other [.name "n", .call (.name "g") [.name "n"] []]) = false)
  ∧ analyze_return_expr "g" (some (.other [.name "n", .call (.name "g") [.name "n"] []]))
      = (false, 0, 1,
         ["Self-call détecté dans l\x27expression de retour -> non terminal"])
  ∧ check_block "g" [.ret (some (.other [.name "n", .call (.name "g") [.name "n"] []]))]
      = ⟨false, true, 0, 1,
         ["Self-call détecté dans l\x27expression de retour -> non terminal"]⟩ := by
  refine ⟨⟨by decide, by decide⟩, ?_, ?_⟩
  · exact C5_nested_self_call_non_tail.1 "g" _ (by decide) (by decide)
  · exact C5_nested_self_call_non_tail.2.1 "g" _ [] (by decide) (by decide)

/-- C6: a `While`/`For`/`Try`/`With`/`Match` statement contributes all
self-calls of its whole subtree as non-tail, records a diagnostic naming
the construct, and never contributes to `always_returns`; a block whose
tail self-call count is zero — in particular a function whose reachable
top-level statements are all such constructs or self-call-free — is
never `is_tail_recursive`. -/
theorem C6_compound_conservative :
    (∀ (fname : String) (k : CompoundKind) (es : List PExpr) (b rest : List PStmt),
        check_block fname (.compound k es b :: rest)
          = ⟨(countS fname (.compound k es b) == 0) && (check_block fname rest).ok,
             (check_block fname rest).always_returns,
             (check_block fname rest).self_calls_in_tail,
             countS fname (.compound k es b) + (check_block fname rest).self_calls_non_tail,
             structureMsg k :: (check_block fname rest).reasons⟩)
  ∧ (∀ k : CompoundKind, ∃ pre post, structureMsg k = pre ++ (k.clsName ++ post))
  ∧ (∀ func : FunctionDef,
        (check_block func.name func.body).self_calls_in_tail = 0 →
        (TailRecursionAnalyzer.analyze func).is_tail_recursive = false)
  ∧ (∀ func : FunctionDef,
        (∀ s ∈ func.body, (∃ k es b, s = PStmt.compound k es b) ∨ countS func.name s = 0) →
        (TailRecursionAnalyzer.analyze func).is_tail_recursive = false) := by
  have key : ∀ func : FunctionDef,
      (check_block func.name func.body).self_calls_in_tail = 0 →
      (TailRecursionAnalyzer.analyze func).is_tail_recursive = false := by
    intro func h0
    rcases analyze_fields func with ⟨_, _, h3⟩
    rw [h3, h0]
    by_cases hnt : (check_block func.name func.body).self_calls_non_tail = 0
    · simp [hnt]
    · simp [hnt]
  refine ⟨?_, ?_, key, ?_⟩
  · intro fname k es b rest
    simp [check_block]
  · intro k
    exact ⟨"Structure ", " détectée : analyse V1 conservatrice", rfl⟩
  · intro func h
    exact key func (tail_eq_zero_of_heads func.name func.body h)

/-- C6 witness: `def f(n): while n: return f(n)` — the only self-call
sits inside a `While`, so it is non-tail, the construct is named in a
diagnostic, and the function is not certified. -/
theorem C6_compound_conservative_witness :
    check_block "f" [.compound .whileK [.name "n"]
        [.ret (some (.call (.name "f") [.name "n"] []))]]
      = ⟨false, false, 0, 1, [structureMsg .whileK]⟩
  ∧ structureMsg .whileK = "Structure " ++ ("While" ++ " détectée : analyse V1 conservatrice")
  ∧ (TailRecursionAnalyzer.analyze
       ⟨"f", ["n"], [.compound .whileK [.name "n"]
          [.ret (some (.call (.name "f") [.name "n"] []))]]⟩).is_tail_recursive = false := by
  refine ⟨?_, rfl, ?_⟩
  · have h := C6_compound_conservative.1 "f" .whileK [.name "n"]
      [.ret (some (.call (.name "f") [.name "n"] []))] []
    rw [h]
    simp [check_block, countS, countE, countEL, countSL, is_self_call]
  · refine C6_compound_conservative.2.2.2 _ ?_
    intro s hs
    simp only [List.mem_singleton] at hs
    exact Or.inl ⟨.whileK, _, _, hs⟩

/-- C7: an `If` whose two branches both always-return terminates the
block scan — the verdict is assembled from the two branches only,
independently of any following statements, with `always_returns = true`
— while an `If` whose branches are not both always-returning does not
terminate the scan: the verdict continues with the following statements
and the `If` contributes no `always_returns` of its own. -/
theorem C7_if_exhaustive_terminator :
    (∀ (fname : String) (t : PExpr) (b o : List PStmt) (rest : List PStmt),
        (check_block fname b).always_returns = true →
        (check_block fname o).always_returns = true →
        check_block fname (.ifS t b o :: rest)
          = ⟨(check_block fname b).ok && (check_block fname o).ok, true,
             (check_block fname b).self_calls_in_tail + (check_block fname o).self_calls_in_tail,
             (check_block fname b).self_calls_non_tail + (check_block fname o).self_calls_non_tail,
             (check_block fname b).reasons ++ (check_block fname o).reasons⟩)
  ∧ (∀ (fname : String) (t : PExpr) (b o : List PStmt) (rest : List PStmt),
        ((check_block fname b).always_returns && (check_block fname o).always_returns) = false →
        check_block fname (.ifS t b o :: rest)
          = ⟨(check_block fname b).ok && (check_block fname o).ok && (check_block fname rest).ok,
             (check_block fname rest).always_returns,
             (check_block fname b).self_calls_in_tail + (check_block fname o).self_calls_in_tail
               + (check_block fname rest).self_calls_in_tail,
             (check_block fname b).self_calls_non_tail + (check_block fname o).self_calls_non_tail
               + (check_block fname rest).self_calls_non_tail,
             (check_block fname b).reasons ++ (check_block fname o).reasons
               ++ (check_block fname rest).reasons⟩) := by
  constructor
  · intro fname t b o rest h1 h2
    simp [check_block, h1, h2]
  · intro fname t b o rest h
    simp [check_block, h]

/-- C7 witness: exhaustive `if` followed by a statement (excluded from
the scan), and non-exhaustive `if` followed by nothing (scan continues,
`always_returns` stays false). -/
theorem C7_if_exhaustive_terminator_witness :
    check_block "f" [.ifS (.name "c") [.ret none] [.ret none],
        .assign [.name "x"] (.call (.name "f") [] [])]
      = ⟨true, true, 0, 0, []⟩
  ∧ check_block "f" [.ifS (.name "c") [.ret none] []]
      = ⟨true, false, 0, 0, []⟩ := by
  constructor
  · have h := C7_if_exhaustive_terminator.1 "f" (.name "c") [.ret none] [.ret none]
      [.assign [.name "x"] (.call (.name "f") [] [])]
      (by simp [check_block, analyze_return_expr])
      (by simp [check_block, analyze_return_expr])
    rw [h]
    simp [check_block, analyze_return_expr]
  · have h := C7_if_exhaustive_terminator.2 "f" (.name "c") [.ret none] [] []
      (by simp [check_block, analyze_return_expr])
    rw [h]
    simp [check_block, analyze_return_expr]

/-- C8: the `FunctionAnalysis` invariants — `is_recursive` iff
`total_self_calls > 0`, and `is_tail_recursive` implies `is_recursive`,
zero non-tail self-calls, `always_returns` and `ok` on the body's block
verdict; moreover a `Return` ends the scan of its sequence: statements
after it contribute no counts and no diagnostics. -/
theorem C8_verdict_invariants :
    (∀ func : FunctionDef,
        (TailRecursionAnalyzer.analyze func).is_recursive = true
          ↔ 0 < (TailRecursionAnalyzer.analyze func).total_self_calls)
  ∧ (∀ func : FunctionDef,
        (TailRecursionAnalyzer.analyze func).is_tail_recursive = true →
        (TailRecursionAnalyzer.analyze func).is_recursive = true
        ∧ (check_block func.name func.body).self_calls_non_tail = 0
        ∧ (check_block func.name func.body).always_returns = true
        ∧ (check_block func.name func.body).ok = true)
  ∧ (∀ (fname : String) (v : Option PExpr) (rest : List PStmt),
        check_block fname (.ret v :: rest) = check_block fname [.ret v]) := by
  refine ⟨?_, ?_, ?_⟩
  · intro func
    rcases analyze_fields func with ⟨h1, h2, _⟩
    rw [h1, h2]
    simp
  · intro func h
    rcases analyze_fields func with ⟨h1, _, h3⟩
    rw [h3] at h
    simp only [Bool.and_eq_true, beq_iff_eq, decide_eq_true_eq] at h
    refine ⟨?_, h.1.2, h.2, h.1.1.2⟩
    rw [h1]
    simp only [decide_eq_true_eq]
    exact h.1.1.1
  · intro fname v rest
    simp [check_block]

/-- C8 witness at the accumulator factorial. -/
theorem C8_verdict_invariants_witness :
    ((TailRecursionAnalyzer.analyze exFact).is_recursive = true
      ↔ 0 < (TailRecursionAnalyzer.analyze exFact).total_self_calls)
  ∧ ((TailRecursionAnalyzer.analyze exFact).is_tail_recursive = true
      ∧ (TailRecursionAnalyzer.analyze exFact).is_recursive = true
      ∧ (check_block exFact.name exFact.body).self_calls_non_tail = 0
      ∧ (check_block exFact.name exFact.body).always_returns = true
      ∧ (check_block exFact.name exFact.body).ok = true)
  ∧ check_block "fact" [.ret none, .assign [.name "x"] (.call (.name "fact") [] [])]
      = check_block "fact" [.ret none] := by
  refine ⟨C8_verdict_invariants.1 exFact, ?_, C8_verdict_invariants.2.2 "fact" none _⟩
  have htail : (TailRecursionAnalyzer.analyze exFact).is_tail_recursive = true := by
    obtain ⟨_, _, h3⟩ := analyze_fields exFact
    rw [h3, exFact_block]
    rfl
  exact ⟨htail, C8_verdict_invariants.2.1 exFact htail⟩

/-- C4: the Rewriter replaces each `Return` whose expression is a direct
self-call by exactly two statements in order — one simultaneous
assignment binding all parameters to the argument expressions, then a
loop-continue — leaves returns that are not direct self-calls and
statements holding no such return unchanged, and wraps the rewritten
sequence as the sole body of one new unconditional `while True` loop
with the name and parameter list unchanged. -/
theorem C4_rewrite_shape :
    (∀ func : FunctionDef,
        transform_tail_recursion func
          = ⟨func.name, func.params,
             [.compound .whileK [.boolConst true]
               (rewriteSL func.name func.params func.body)]⟩)
  ∧ (∀ (fname : String) (params : List String) (args kwargs : List PExpr)
        (rest : List PStmt),
        rewriteSL fname params (.ret (some (.call (.name fname) args kwargs)) :: rest)
          = .assign [.tupleE (params.map PExpr.name)] (.tupleE args)
            :: .continueS :: rewriteSL fname params rest)
  ∧ (∀ (fname : String) (params : List String) (v : Option PExpr),
        (match v with
         | none => false
         | some e => isDirectSelfCall fname e) = false →
        rewriteS fname params (.ret v) = [.ret v])
  ∧ (∀ (fname : String) (params : List String) (s : PStmt),
        hasTailRetS fname s = false → rewriteS fname params s = [s]) := by
  refine ⟨?_, ?_, ?_, rewriteS_id⟩
  · intro func
    cases func
    rfl
  · intro fname params args kwargs rest
    simp [rewriteSL, rewriteS, is_self_call]
  · intro fname params v h
    cases v with
    | none => simp [rewriteS]
    | some e =>
        cases e with
        | call f args kwargs =>
            simp only [isDirectSelfCall] at h
            simp [rewriteS, h]
        | name _ => simp [rewriteS]
        | boolConst _ => simp [rewriteS]
        | tupleE _ => simp [rewriteS]
        | other _ => simp [rewriteS]

/-- C4 witness: the accumulator factorial — its tail-call return becomes
assignment plus continue, its base-case return is untouched, and the
result is one loop. -/
theorem C4_rewrite_shape_witness :
    transform_tail_recursion exFact
      = ⟨exFact.name, exFact.params,
         [.compound .whileK [.boolConst true]
           (rewriteSL exFact.name exFact.params exFact.body)]⟩
  ∧ rewriteSL "fact" ["n", "acc"]
      [.ret (some (.call (.name "fact") [.name "m"] []))]
      = [.assign [.tupleE [PExpr.name "n", PExpr.name "acc"]] (.tupleE [.name "m"]),
         .continueS]
  ∧ ((match some (PExpr.name "acc") with
      | none => false
      | some e => isDirectSelfCall "fact" e) = false
     ∧ rewriteS "fact" ["n", "acc"] (.ret (some (.name "acc"))) = [.ret (some (.name "acc"))])
  ∧ (hasTailRetS "fact" (.assign [.name "x"] (.name "y")) = false
     ∧ rewriteS "fact" ["n", "acc"] (.assign [.name "x"] (.name "y"))
        = [.assign [.name "x"] (.name "y")]) := by
  refine ⟨C4_rewrite_shape.1 exFact, ?_, ?_, ?_⟩
  · have h := C4_rewrite_shape.2.1 "fact" ["n", "acc"] [.name "m"] [] []
    simpa [rewriteSL] using h
  · exact ⟨by decide, C4_rewrite_shape.2.2.1 "fact" ["n", "acc"] (some (.name "acc")) (by decide)⟩
  · exact ⟨by decide, C4_rewrite_shape.2.2.2 "fact" ["n", "acc"] _ (by decide)⟩

/-- C10: the emitted simultaneous assignment binds the full parameter
list on the left to exactly the positional arguments of the self-call on
the right — keyword arguments are silently dropped (the output is the
same as for the keyword-free call) — so the target tuple has one element
per parameter, the value tuple one per positional argument, and the two
lengths agree iff the call supplies exactly one positional argument per
parameter. -/
theorem C10_assignment_arity :
    (∀ (fname : String) (params : List String) (args kwargs : List PExpr),
        rewriteS fname params (.ret (some (.call (.name fname) args kwargs)))
          = [.assign [.tupleE (params.map PExpr.name)] (.tupleE args), .continueS])
  ∧ (∀ (fname : String) (params : List String) (args kwargs : List PExpr),
        rewriteS fname params (.ret (some (.call (.name fname) args kwargs)))
          = rewriteS fname params (.ret (some (.call (.name fname) args []))))
  ∧ (∀ (params : List String) (args : List PExpr),
        (params.map PExpr.name).length = params.length ∧ args.length = args.length
        ∧ ((params.map PExpr.name).length = args.length ↔ args.length = params.length))
  ∧ (∀ (params : List String) (args : List PExpr),
        args.length ≠ params.length →
        (params.map PExpr.name).length ≠ args.length) := by
  refine ⟨?_, ?_, ?_, ?_⟩
  · intro fname params args kwargs
    simp [rewriteS, is_self_call]
  · intro fname params args kwargs
    simp [rewriteS, is_self_call]
  · intro params args
    refine ⟨List.length_map _ _, rfl, ?_⟩
    rw [List.length_map]
    exact eq_comm
  · intro params args h
    rw [List.length_map]
    exact fun hc => h hc.symm

/-- C10 witness: a recursive call supplying one positional argument and
one keyword argument to a two-parameter function — the keyword is
dropped and the emitted tuples have lengths 2 and 1. -/
theorem C10_assignment_arity_witness :
    rewriteS "f" ["a", "b"] (.ret (some (.call (.name "f") [.name "x"] [.name "k"])))
      = [.assign [.tupleE [PExpr.name "a", PExpr.name "b"]] (.tupleE [.name "x"]),
         .continueS]
  ∧ rewriteS "f" ["a", "b"] (.ret (some (.call (.name "f") [.name "x"] [.name "k"])))
      = rewriteS "f" ["a", "b"] (.ret (some (.call (.name "f") [.name "x"] [])))
  ∧ (([PExpr.name "x"] : List PExpr).length ≠ (["a", "b"] : List String).length
     ∧ ((["a", "b"] : List String).map PExpr.name).length ≠ ([PExpr.name "x"] : List PExpr).length) := by
  refine ⟨?_, C10_assignment_arity.2.1 "f" ["a", "b"] [.name "x"] [.name "k"], ?_⟩
  · have h := C10_assignment_arity.1 "f" ["a", "b"] [.name "x"] [.name "k"]
    simpa using h
  · exact ⟨by decide, C10_assignment_arity.2.2.2 ["a", "b"] [.name "x"] (by decide)⟩

/-- C2: counterexample — the Rewriter invoked on the non-certified naive
factorial does not raise or abort: it returns a transformed
`FunctionDefinition` (the body wrapped in a `while True` loop, the
non-tail return left in place). -/
theorem C2_counterexample :
    is_tail_recursive exNonTail = false
  ∧ (TailRecursionAnalyzer.analyze exNonTail).is_tail_recursive = false
  ∧ transform_tail_recursion exNonTail
      = ⟨"g", ["n"], [.compound .whileK [.boolConst true] exNonTail.body]⟩ := by
  refine ⟨exNonTail_gate, ?_, ?_⟩
  · obtain ⟨_, _, h3⟩ := analyze_fields exNonTail
    rw [h3, exNonTail_block]
    rfl
  · simp [transform_tail_recursion, exNonTail, rewriteSL, rewriteS, is_self_call]

/-- C2 (amended): `transform_tail_recursion` performs no certification
check and never fails fast: invoked on a function the gate rejects, it
still returns the function with its body rewritten and wrapped in a
single `while True` loop. -/
theorem C2_no_fail_fast (func : FunctionDef)
    (h : is_tail_recursive func = false) :
    transform_tail_recursion func
      = ⟨func.name, func.params,
         [.compound .whileK [.boolConst true]
           (rewriteSL func.name func.params func.body)]⟩ := by
  cases func
  rfl

/-- C2 amended witness at the naive factorial. -/
theorem C2_no_fail_fast_witness :
    is_tail_recursive exNonTail = false
  ∧ transform_tail_recursion exNonTail
      = ⟨exNonTail.name, exNonTail.params,
         [.compound .whileK [.boolConst true]
           (rewriteSL exNonTail.name exNonTail.params exNonTail.body)]⟩ := by
  exact ⟨exNonTail_gate, C2_no_fail_fast exNonTail exNonTail_gate⟩

/-- C9: for a function the Orchestrator's gate certifies and the
Rewriter rewrites, re-running the Analyzer on the rewritten loop-based
function yields `is_recursive = false`: every direct tail self-call was
replaced by assignment-plus-continue and no self-call remains. -/
theorem C9_rewritten_not_recursive (func : FunctionDef)
    (h : is_tail_recursive func = true) :
    (TailRecursionAnalyzer.analyze (transform_tail_recursion func)).is_recursive = false := by
  have hgate : tailPosOkSL func.name func.body = true := by
    simp only [is_tail_recursive, Bool.and_eq_true] at h
    exact h.1
  have hcnt := rewrite_countSL func.name func.params func.body hgate
  rcases analyze_fields (transform_tail_recursion func) with ⟨h1, _, _⟩
  rw [h1]
  have hname : (transform_tail_recursion func).name = func.name := rfl
  have hbody : (transform_tail_recursion func).body
      = [.compound .whileK [.boolConst true]
          (rewriteSL func.name func.params func.body)] := rfl
  rw [hname, hbody]
  simp [check_block, countS, countEL, countE, hcnt]

/-- C9 witness at the accumulator factorial. -/
theorem C9_rewritten_not_recursive_witness :
    is_tail_recursive exFact = true
  ∧ (TailRecursionAnalyzer.analyze (transform_tail_recursion exFact)).is_recursive = false := by
  exact ⟨exFact_gate, C9_rewritten_not_recursive exFact exFact_gate⟩

/-- C1: counterexample — the certification test the Orchestrator gates
on (`is_tail_recursive` of tail_transform.py) is not equivalent to the
Analyzer's verdict (tail_analysis.py): for
`def f(n): if n > 0: return f(n-1)` the gate holds — every self-call's
parent is a `Return` — and the Orchestrator records the function as
transformed, while the Analyzer's `is_tail_recursive` is false because
not all paths return. -/
theorem C1_counterexample :
    is_tail_recursive exIfOnly = true
  ∧ (TailRecursionAnalyzer.analyze exIfOnly).is_tail_recursive = false
  ∧ (analyze_and_transform [exIfOnly]).2 = [("f", true)] := by
  refine ⟨exIfOnly_gate, ?_, ?_⟩
  · obtain ⟨_, _, h3⟩ := analyze_fields exIfOnly
    rw [h3, exIfOnly_block]
    rfl
  · simp only [analyze_and_transform, List.map_cons, List.map_nil, exIfOnly_gate]
    rfl

/-- C1 (amended): for every top-level function definition, the
Orchestrator invokes the Tail Rewriter if and only if
`is_tail_recursive` (tail_transform.py) holds of it — the parent-based
walk requiring at least one self-call and every self-call directly under
a `Return` — and records that flag; this gate does not coincide with the
Analyzer's `is_tail_recursive` verdict, which additionally requires
all-paths-return and rejects self-calls nested in
loop/exception/resource/match constructs. -/
theorem C1_gate_is_transform_criterion (funcs : List FunctionDef) (i : Nat)
    (h : i < funcs.length) :
    (analyze_and_transform funcs).2[i]?
      = some ((funcs[i]).name, is_tail_recursive funcs[i])
  ∧ (analyze_and_transform funcs).1[i]?
      = some (if is_tail_recursive funcs[i]
              then transform_tail_recursion funcs[i] else funcs[i]) := by
  constructor
  · simp [analyze_and_transform, List.getElem?_map, List.getElem?_eq_getElem h]
  · simp [analyze_and_transform, List.getElem?_map, List.getElem?_eq_getElem h]

/-- C1 amended witness at a one-function unit. -/
theorem C1_gate_is_transform_criterion_witness :
    0 < ([exIfOnly] : List FunctionDef).length
  ∧ (analyze_and_transform [exIfOnly]).2[0]? = some ("f", is_tail_recursive exIfOnly)
  ∧ (analyze_and_transform [exIfOnly]).1[0]?
      = some (if is_tail_recursive exIfOnly
              then transform_tail_recursion exIfOnly else exIfOnly) := by
  have h := C1_gate_is_transform_criterion [exIfOnly] 0 (by simp)
  refine ⟨by simp, ?_, ?_⟩
  · simpa [exIfOnly] using h.1
  · simpa using h.2

/-- C3: counterexample — at the object level the Rewriter's output is
not a new `FunctionDefinition` distinct from its input: the Python
function mutates its argument in place (`func.body = [loop]`) and
returns that very node, so the returned node id equals the argument's id
while the stored content of that node has changed. -/
theorem C3_counterexample :
    (transform_tail_recursion_ref [exFact] 0).2 = 0
  ∧ (transform_tail_recursion_ref [exFact] 0).1.getD 0 default ≠ exFact := by
  constructor
  · rfl
  · simp [transform_tail_recursion_ref, transform_tail_recursion, exFact,
      rewriteSL, rewriteS, is_self_call]

/-- C3 (amended): the Rewriter mutates the working-tree node in place
and returns that same node, but the Orchestrator reparses the source
into a second independent tree and rewrites only the reparsed nodes, so
after the Orchestrator runs every original-tree node is structurally
unchanged. -/
theorem C3_original_tree_unchanged (funcs : List FunctionDef) (i : Nat)
    (h : i < funcs.length) :
    (analyze_and_transform_ref funcs).getD i default = funcs.getD i default := by
  unfold analyze_and_transform_ref
  rw [foldl_transform_preserves_lt funcs.length i h]
  rw [List.getD_eq_getElem?_getD, List.getD_eq_getElem?_getD,
    List.getElem?_append_left h]

/-- C3 amended witness: one certified function; its original-tree node
is unchanged after the pipeline. -/
theorem C3_original_tree_unchanged_witness :
    0 < ([exFact] : List FunctionDef).length
  ∧ (analyze_and_transform_ref [exFact]).getD 0 default = exFact := by
  refine ⟨by simp, ?_⟩
  have h := C3_original_tree_unchanged [exFact] 0 (by simp)
  simpa using h
